import Mathlib

/-!
Shallow embedding of the `logger` package of BlogService
(src/unnamed/part_000, Go).

Modelling conventions:
* Go maps (`Fields`, the JSON record) are association lists with
  assignment-replaces semantics (`mapInsert`).
* Go's `*Logger` struct value: `clone` (`nl := *l; return &nl`) is a shallow
  copy, so the `fields` map header is shared between the receiver and the
  clone.  We make this aliasing explicit: `Logger.fields` is an optional
  address into an explicit `Heap` of maps (a `nil` Go map is `none`).
  The `callers` slice is never written through after creation (each With*
  call rebinds it to a freshly built slice), so it is modelled as a plain
  immutable list.
* `runtime.Caller` / `runtime.Callers` are external introspection; they are
  modelled as a `Runtime` record carrying the resolvable stack, following
  the stack-walker capability contract of the spec.
* `log.Logger.Print` writes one line: the configured line prefix, the given
  content, and a terminating newline (flag-driven date/file metadata would
  only add further bytes between prefix and content and is omitted; no
  property below depends on it).  `Output` returns the list of lines the
  destination writer receives.
* `time.Now().Local().UnixNano()` is passed in as an explicit `now : Int`.
-/

set_option autoImplicit false

namespace BlogLogger

/-- Values stored in a `Fields` map (`map[string]interface{}`) and in the
JSON record: the shapes the logger actually produces (strings, integers,
booleans, the `[]string` callers slice) plus `chan`, a value such as a Go
channel that `encoding/json` cannot marshal. -/
inductive GoValue where
  | str (s : String)
  | int (n : Int)
  | bool (b : Bool)
  | strArr (ss : List String)
  | chan
  deriving DecidableEq, Repr

/-- `type Level int8` (the numeric value; int8 range plays no role here). -/
abbrev Level := Int

def LevelDebug : Level := 0
def LevelInfo : Level := 1
def LevelWarn : Level := 2
def LevelError : Level := 3
def LevelFatal : Level := 4
def LevelPanic : Level := 5

/-- `func (l Level) String() string` — the switch over the six constants;
no case matching falls through to `return ""`. -/
def levelString (l : Level) : String :=
  if l = LevelDebug then "debug"
  else if l = LevelInfo then "info"
  else if l = LevelWarn then "warn"
  else if l = LevelError then "error"
  else if l = LevelFatal then "fatal"
  else if l = LevelPanic then "panic"
  else ""

/-- A Go map / JSON record: association list, first occurrence of a key is
its binding. -/
abbrev FieldMap := List (String × GoValue)

/-- Go map assignment `m[k] = v`: replace the binding if present, else add. -/
def mapInsert (m : FieldMap) (k : String) (v : GoValue) : FieldMap :=
  match m with
  | [] => [(k, v)]
  | (k', v') :: rest =>
      if k = k' then (k, v) :: rest else (k', v') :: mapInsert rest k v

/-- Go map read `m[k]` (the `ok` form). -/
def mapLookup (m : FieldMap) (k : String) : Option GoValue :=
  match m with
  | [] => none
  | (k', v') :: rest => if k = k' then some v' else mapLookup rest k

/-- Insert all bindings of `f` into `m`, in order (`for k, v := range f`).
Go's range order over `f` is unspecified, but `f`'s keys are unique, so the
resulting map, as a key-to-value function, does not depend on it. -/
def mapInsertAll (m f : FieldMap) : FieldMap :=
  f.foldl (fun acc kv => mapInsert acc kv.1 kv.2) m

/-- The heap of live Go map objects; an address is an index into `maps`. -/
structure Heap where
  maps : List FieldMap
  deriving DecidableEq, Repr

/-- `make(Fields)` : allocate a fresh empty-initialized map, returning its
address. -/
def Heap.alloc (h : Heap) (m : FieldMap) : Nat × Heap :=
  (h.maps.length, ⟨h.maps ++ [m]⟩)

/-- Dereference a map address (reading an unallocated address yields the
empty map; never exercised by the code below). -/
def Heap.get (h : Heap) (a : Nat) : FieldMap :=
  h.maps.getD a []

/-- Overwrite the map object at address `a`. -/
def Heap.set (h : Heap) (a : Nat) (m : FieldMap) : Heap :=
  ⟨h.maps.set a m⟩

/-- The formatting configuration of the embedded `log.Logger`
(`log.New(w, prefix, flag)`); `pfx` is the line prefix. -/
structure LogLogger where
  pfx : String
  flag : Int
  deriving DecidableEq, Repr

/-- Whether a string ends in a newline character. -/
def endsWithNewline (s : String) : Bool :=
  match s.data.getLast? with
  | some c => c == '\n'
  | none => false

/-- `log.Logger.Print(content)`: the line the destination writer receives —
prefix, content, and a newline appended when the content does not already
end in one. -/
def logPrint (lg : LogLogger) (s : String) : String :=
  lg.pfx ++ (if endsWithNewline s then s else s ++ "\n")

/-- `type Logger struct` — `ctx` is the opaque `context.Context` handle
(stored, never inspected), `fields` the address of the `Fields` map or
`none` for a nil map, `callers` the `[]string` slice contents. -/
structure Logger where
  newLogger : LogLogger
  ctx : Option Nat
  level : Level
  fields : Option Nat
  callers : List String
  deriving DecidableEq, Repr

/-- `func NewLogger(w io.Writer, prefix string, flag int) *Logger` —
all other struct fields are zero-valued (nil map, nil slice, level 0). -/
def NewLogger (pfx : String) (flag : Int) : Logger :=
  { newLogger := ⟨pfx, flag⟩, ctx := none, level := 0, fields := none,
    callers := [] }

/-- `func (l *Logger) clone() *Logger { nl := *l; return &nl }` — a shallow
struct copy: the map address in `fields` is shared, not the map object. -/
def Logger.clone (l : Logger) : Logger := l

/-- The field set a logger value observes through its map reference
(a nil map reads as empty). -/
def observeFields (l : Logger) (h : Heap) : FieldMap :=
  match l.fields with
  | none => []
  | some a => h.get a

/-- `func (l *Logger) WithLevel(lvl Level) *Logger`. -/
def Logger.WithLevel (l : Logger) (lvl : Level) : Logger :=
  { l.clone with level := lvl }

/-- `func (l *Logger) WithFields(f Fields) *Logger`: after the shallow
clone, a nil `fields` map is replaced by a fresh allocation; otherwise the
insertions go through the clone's map reference — which is the receiver's
own map object. -/
def Logger.WithFields (l : Logger) (f : FieldMap) (h : Heap) :
    Logger × Heap :=
  let ll := l.clone
  match ll.fields with
  | none =>
      let (a, h1) := h.alloc []
      let h2 := h1.set a (mapInsertAll (h1.get a) f)
      ({ ll with fields := some a }, h2)
  | some a =>
      let h2 := h.set a (mapInsertAll (h.get a) f)
      (ll, h2)

/-- `func (l *Logger) WithContext(ctx context.Context) *Logger`. -/
def Logger.WithContext (l : Logger) (ctx : Option Nat) : Logger :=
  { l.clone with ctx := ctx }

/-- One resolvable stack frame, as the Go runtime reports it:
a program counter plus its source file and line. -/
structure CallerInfo where
  pc : Int
  file : String
  line : Int
  deriving DecidableEq, Repr

/-- One frame as `runtime.CallersFrames` resolves it. -/
structure Frame where
  file : String
  line : Int
  function : String
  deriving DecidableEq, Repr

/-- The stack-introspection capability backing `runtime.Caller`,
`runtime.FuncForPC` and `runtime.Callers`/`CallersFrames`:
`caller skip` resolves one frame at the given skip depth (or fails),
`funcForPC` resolves a program counter to its function's name (or `none`,
in which case `(*Func)(nil).Name()` yields `""`), and `stack` is the
resolvable call stack from depth 1 outward, innermost first. -/
structure Runtime where
  caller : Int → Option CallerInfo
  funcForPC : Int → Option String
  stack : List Frame

/-- `fmt.Sprintf("%s: %d %s", file, line, fn)`. -/
def formatFrame (file : String) (line : Int) (fn : String) : String :=
  file ++ ": " ++ toString line ++ " " ++ fn

/-- `func (l *Logger) WithCaller(skip int) *Logger`: on success the callers
slice is rebound to a fresh single-element slice; on failure (`!ok`) the
clone is returned untouched. -/
def Logger.WithCaller (rt : Runtime) (l : Logger) (skip : Int) : Logger :=
  let ll := l.clone
  match rt.caller skip with
  | some ci =>
      { ll with callers :=
          [formatFrame ci.file ci.line ((rt.funcForPC ci.pc).getD "")] }
  | none => ll

/-- The `for frame, more := frames.Next(); more; frame, more = frames.Next()`
loop of `WithCallersFrames`: `Next` on a non-empty iterator returns the head
frame with `more` true exactly when further frames remain, so the loop body
runs for every frame except the last, and not at all on an empty iterator. -/
def frameIter : List Frame → List String
  | [] => []
  | [_] => []
  | f :: g :: rest =>
      formatFrame f.file f.line f.function :: frameIter (g :: rest)

/-- `func (l *Logger) WithCallersFrames() *Logger`: `runtime.Callers(1, pcs)`
fills a 25-entry buffer from the resolvable stack, `CallersFrames` resolves
the filled part, and the `Next` loop renders the frames. -/
def Logger.WithCallersFrames (rt : Runtime) (l : Logger) : Logger :=
  let maxCallerDepth := 25
  let captured := rt.stack.take maxCallerDepth
  let callers := frameIter captured
  { l.clone with callers := callers }

/-- JSON string literal rendering (quoting; escaping of special characters
inside the text is immaterial to every property below). -/
def jsonQuote (s : String) : String := "\"" ++ s ++ "\""

def joinComma : List String → String
  | [] => ""
  | [s] => s
  | s :: rest => s ++ "," ++ joinComma rest

/-- `encoding/json` serialization of one value; `none` is the Marshal error
(an unsupported type such as a channel). -/
def serializeValue : GoValue → Option String
  | .str s => some (jsonQuote s)
  | .int n => some (toString n)
  | .bool b => some (if b then "true" else "false")
  | .strArr ss => some ("[" ++ joinComma (ss.map jsonQuote) ++ "]")
  | .chan => none

/-- Render the entries of a record whose values all serialize; fail on the
first unsupported value. -/
def serializeEntries : FieldMap → Option (List String)
  | [] => some []
  | (k, v) :: rest => do
      let sv ← serializeValue v
      let srest ← serializeEntries rest
      pure ((jsonQuote k ++ ":" ++ sv) :: srest)

/-- Byte-wise (code-point-wise) string order, as Go's `sort.Strings` orders
JSON object keys in `encoding/json.Marshal`. -/
def charListLe : List Char → List Char → Bool
  | [], _ => true
  | _ :: _, [] => false
  | c :: cs, d :: ds =>
      if c.val < d.val then true
      else if d.val < c.val then false
      else charListLe cs ds

def strLe (a b : String) : Bool := charListLe a.data b.data

/-- `encoding/json.Marshal` orders a map's keys; stable insertion sort on
the record's keys. -/
def insertSorted (p : String × GoValue) :
    List (String × GoValue) → List (String × GoValue)
  | [] => [p]
  | q :: rest =>
      if strLe p.1 q.1 then p :: q :: rest else q :: insertSorted p rest

def sortByKey (r : FieldMap) : FieldMap :=
  r.foldr insertSorted []

/-- `json.Marshal` of the record map: `none` is the error case (some value
is not representable), in which case Marshal returns a nil byte slice. -/
def jsonMarshal (r : FieldMap) : Option String :=
  (serializeEntries (sortByKey r)).map
    (fun es => "\x7b" ++ joinComma es ++ "\x7d")

/-- `func (l *Logger) JSONFormat(message string) map[string]interface{}`:
the four reserved keys are assigned first into a fresh map, then each field
of the configuration's field set is inserted only when its key is not
already present. -/
def Logger.JSONFormat (l : Logger) (h : Heap) (now : Int)
    (message : String) : FieldMap :=
  let data : FieldMap :=
    mapInsert (mapInsert (mapInsert (mapInsert []
      "level" (.str (levelString l.level)))
      "time" (.int now))
      "message" (.str message))
      "callers" (.strArr l.callers)
  let fs := observeFields l h
  if fs.length > 0 then
    fs.foldl
      (fun d kv => if (mapLookup d kv.1).isSome then d
                   else mapInsert d kv.1 kv.2)
      data
  else data

/-- `func (l *Logger) Output(message string)`: `body, _ := json.Marshal(...)`
discards the error (a nil `body` stringifies to `""`), then the switch over
the six levels prints the content once per matching case; a level outside
the six constants matches no case and nothing is printed.  The result is
the list of lines the destination writer receives. -/
def Logger.Output (l : Logger) (h : Heap) (now : Int)
    (message : String) : List String :=
  let body := jsonMarshal (l.JSONFormat h now message)
  let content := body.getD ""
  if l.level = LevelDebug then [logPrint l.newLogger content]
  else if l.level = LevelInfo then [logPrint l.newLogger content]
  else if l.level = LevelWarn then [logPrint l.newLogger content]
  else if l.level = LevelError then [logPrint l.newLogger content]
  else if l.level = LevelFatal then [logPrint l.newLogger content]
  else if l.level = LevelPanic then [logPrint l.newLogger content]
  else []

/-- One operand of a variadic convenience call, as `fmt.Sprint` renders it
(`fmt`'s default verb; the exact text for non-string operands is immaterial
to every property below). -/
def renderOperand : GoValue → String
  | .str s => s
  | .int n => toString n
  | .bool b => if b then "true" else "false"
  | .strArr ss => "[" ++ joinComma ss ++ "]"
  | .chan => "<chan>"

def GoValue.isString : GoValue → Bool
  | .str _ => true
  | _ => false

/-- `fmt.Sprint(v...)`: operands concatenated, a space added between two
adjacent operands when neither is a string. -/
def fmtSprint : List GoValue → String
  | [] => ""
  | [v] => renderOperand v
  | v :: w :: rest =>
      renderOperand v ++
      (if v.isString || w.isString then "" else " ") ++
      fmtSprint (w :: rest)

/-- `fmt.Sprintf(format, v...)` — external standard-library formatting; its
exact rendering is irrelevant to the properties below (every statement
holds for an arbitrary rendering), modelled as the template followed by the
rendered arguments. -/
def fmtSprintf (format : String) (vs : List GoValue) : String :=
  format ++ joinComma (vs.map renderOperand)

/-- `func (l *Logger) Debug(v ...interface{})`. -/
def Logger.Debug (l : Logger) (h : Heap) (now : Int)
    (vs : List GoValue) : List String :=
  (l.WithLevel LevelDebug).Output h now (fmtSprint vs)

/-- `func (l *Logger) Debugf(format string, v ...interface{})`. -/
def Logger.Debugf (l : Logger) (h : Heap) (now : Int) (format : String)
    (vs : List GoValue) : List String :=
  (l.WithLevel LevelDebug).Output h now (fmtSprintf format vs)

/-- `func (l *Logger) Info(v ...interface{})`. -/
def Logger.Info (l : Logger) (h : Heap) (now : Int)
    (vs : List GoValue) : List String :=
  (l.WithLevel LevelInfo).Output h now (fmtSprint vs)

/-- `func (l *Logger) Infof(format string, v ...interface{})`. -/
def Logger.Infof (l : Logger) (h : Heap) (now : Int) (format : String)
    (vs : List GoValue) : List String :=
  (l.WithLevel LevelInfo).Output h now (fmtSprintf format vs)

/-- `func (l *Logger) Warn(v ...interface{})`. -/
def Logger.Warn (l : Logger) (h : Heap) (now : Int)
    (vs : List GoValue) : List String :=
  (l.WithLevel LevelWarn).Output h now (fmtSprint vs)

/-- `func (l *Logger) Warnf(format string, v ...interface{})`. -/
def Logger.Warnf (l : Logger) (h : Heap) (now : Int) (format : String)
    (vs : List GoValue) : List String :=
  (l.WithLevel LevelWarn).Output h now (fmtSprintf format vs)

/-- `func (l *Logger) Error(v ...interface{})`. -/
def Logger.Error (l : Logger) (h : Heap) (now : Int)
    (vs : List GoValue) : List String :=
  (l.WithLevel LevelError).Output h now (fmtSprint vs)

/-- `func (l *Logger) Errorf(format string, v ...interface{})`. -/
def Logger.Errorf (l : Logger) (h : Heap) (now : Int) (format : String)
    (vs : List GoValue) : List String :=
  (l.WithLevel LevelError).Output h now (fmtSprintf format vs)

/-- `func (l *Logger) Fatal(v ...interface{})` — notably does not call
`os.Exit` or `panic`; it only derives and emits. -/
def Logger.Fatal (l : Logger) (h : Heap) (now : Int)
    (vs : List GoValue) : List String :=
  (l.WithLevel LevelFatal).Output h now (fmtSprint vs)

/-- `func (l *Logger) Fatalf(format string, v ...interface{})`. -/
def Logger.Fatalf (l : Logger) (h : Heap) (now : Int) (format : String)
    (vs : List GoValue) : List String :=
  (l.WithLevel LevelFatal).Output h now (fmtSprintf format vs)

/-- `func (l *Logger) Panic(v ...interface{})` — notably does not call
the builtin `panic`; it only derives and emits. -/
def Logger.Panic (l : Logger) (h : Heap) (now : Int)
    (vs : List GoValue) : List String :=
  (l.WithLevel LevelPanic).Output h now (fmtSprint vs)

/-- `func (l *Logger) Panicf(format string, v ...interface{})`. -/
def Logger.Panicf (l : Logger) (h : Heap) (now : Int) (format : String)
    (vs : List GoValue) : List String :=
  (l.WithLevel LevelPanic).Output h now (fmtSprintf format vs)

/-! ### Auxiliary definitions and concrete sample states -/

/-- Left-biased choice on optional values (`a` when present, else `b`). -/
def optOr (a b : Option GoValue) : Option GoValue :=
  match a with
  | some v => some v
  | none => b

/-- A destination writer configuration with line prefix `"P:"`. -/
def sampleLog : LogLogger := ⟨"P:", 0⟩

/-- A heap holding one live map `{"a": 1}` at address 0. -/
def sampleHeap : Heap := ⟨[[("a", .int 1)]]⟩

/-- A logger whose (non-nil) field map lives at address 0. -/
def sampleBase : Logger :=
  { newLogger := sampleLog, ctx := none, level := LevelInfo,
    fields := some 0, callers := [] }

/-- A heap whose map at address 0 holds a value `encoding/json` cannot
marshal. -/
def badHeap : Heap := ⟨[[("bad", .chan)]]⟩

/-- `NewLogger(w, "", 0)`: a freshly constructed root logger (nil field
map, nil callers, zero level). -/
def rootLogger : Logger := NewLogger "" 0

/-- A heap whose map at address 0 binds the reserved key `"message"` and a
user key `"svc"`. -/
def msgHeap : Heap := ⟨[[("message", .str "evil"), ("svc", .str "auth")]]⟩

/-- A logger observing `msgHeap`'s map. -/
def msgLogger : Logger :=
  { newLogger := sampleLog, ctx := none, level := LevelDebug,
    fields := some 0, callers := [] }

/-- A logger whose int8 level is none of the six defined constants. -/
def oddLogger : Logger :=
  { newLogger := sampleLog, ctx := none, level := 6, fields := none,
    callers := [] }

/-- A runtime in which no stack frame is resolvable. -/
def rtEmpty : Runtime := ⟨fun _ => none, fun _ => none, []⟩

/-- A runtime whose resolvable stack holds exactly one frame, and whose
single-frame resolution succeeds. -/
def rtOne : Runtime :=
  ⟨fun _ => some ⟨7, "a.go", 12⟩, fun _ => some "main.f",
   [⟨"b.go", 3, "main.g"⟩]⟩

/-! ### Helper lemmas -/

theorem mapLookup_mapInsert_self (m : FieldMap) (k : String) (v : GoValue) :
    mapLookup (mapInsert m k v) k = some v := by
  induction m with
  | nil => simp [mapInsert, mapLookup]
  | cons kv rest ih =>
      by_cases hk : k = kv.1
      · simp [mapInsert, mapLookup, hk]
      · simp [mapInsert, mapLookup, hk, ih]

theorem mapLookup_mapInsert_ne (m : FieldMap) {k k' : String} (v : GoValue)
    (hne : k ≠ k') : mapLookup (mapInsert m k' v) k = mapLookup m k := by
  induction m with
  | nil => simp [mapInsert, mapLookup, hne]
  | cons kv rest ih =>
      by_cases hk : k' = kv.1
      · subst hk
        simp [mapInsert, mapLookup, hne]
      · by_cases hk2 : k = kv.1
        · simp [mapInsert, mapLookup, hk, hk2]
        · simp [mapInsert, mapLookup, hk, hk2, ih]

/-- The field-insertion loop of `JSONFormat` (insert only when the key is
absent): a lookup afterwards sees the pre-existing binding when there is
one, else the first binding in the iterated field list. -/
theorem mapLookup_foldl_insertIfAbsent (fs : FieldMap) (data : FieldMap)
    (k : String) :
    mapLookup
      (fs.foldl
        (fun d kv => if (mapLookup d kv.1).isSome then d
                     else mapInsert d kv.1 kv.2)
        data) k
      = optOr (mapLookup data k) (mapLookup fs k) := by
  induction fs generalizing data with
  | nil => cases hd : mapLookup data k <;> simp [optOr, mapLookup, hd]
  | cons kv rest ih =>
      rw [List.foldl_cons, ih]
      by_cases hpresent : (mapLookup data kv.1).isSome
      · rw [if_pos hpresent]
        by_cases hk : k = kv.1
        · subst hk
          rcases Option.isSome_iff_exists.mp hpresent with ⟨w, hw⟩
          simp [optOr, mapLookup, hw]
        · simp [optOr, mapLookup, hk]
      · rw [if_neg hpresent]
        rw [Option.not_isSome_iff_eq_none] at hpresent
        by_cases hk : k = kv.1
        · subst hk
          simp [optOr, mapLookup, hpresent, mapLookup_mapInsert_self]
        · simp [optOr, mapLookup, hk,
                mapLookup_mapInsert_ne (m := data) (v := kv.2) hk]

/-- `JSONFormat` always equals the insert-if-absent fold over the observed
field set (the `len(l.fields) > 0` guard only skips an empty loop). -/
theorem jsonFormat_eq_foldl (l : Logger) (h : Heap) (now : Int)
    (m : String) :
    l.JSONFormat h now m
      = (observeFields l h).foldl
          (fun d kv => if (mapLookup d kv.1).isSome then d
                       else mapInsert d kv.1 kv.2)
          (mapInsert (mapInsert (mapInsert (mapInsert []
             "level" (.str (levelString l.level)))
             "time" (.int now))
             "message" (.str m))
             "callers" (.strArr l.callers)) := by
  unfold Logger.JSONFormat
  by_cases hlen : (observeFields l h).length > 0
  · simp [hlen]
  · have : observeFields l h = [] := by
      simpa using List.length_eq_zero.mp (Nat.eq_zero_of_not_pos hlen)
    simp [this]

/-- The `Next` loop renders every captured frame except the last. -/
theorem frameIter_eq_dropLast_map (fs : List Frame) :
    frameIter fs
      = fs.dropLast.map (fun f => formatFrame f.file f.line f.function) := by
  induction fs with
  | nil => simp [frameIter]
  | cons f rest ih =>
      cases rest with
      | nil => simp [frameIter]
      | cons g rest' =>
          simp [frameIter, ih, List.dropLast]

theorem frameIter_length_le (fs : List Frame) :
    (frameIter fs).length ≤ fs.length := by
  rw [frameIter_eq_dropLast_map, List.length_map, List.length_dropLast]
  omega

/-- `Output` for a level that is one of the six constants: exactly one
`Print` of the (possibly empty) marshalled content. -/
theorem output_in_range (l : Logger) (h : Heap) (now : Int) (m : String)
    (hlvl : l.level ∈ [LevelDebug, LevelInfo, LevelWarn, LevelError,
                       LevelFatal, LevelPanic]) :
    l.Output h now m
      = [logPrint l.newLogger
          ((jsonMarshal (l.JSONFormat h now m)).getD "")] := by
  simp only [List.mem_cons, List.mem_singleton, List.not_mem_nil,
    or_false] at hlvl
  unfold Logger.Output
  rcases hlvl with h1 | h1 | h1 | h1 | h1 | h1 <;>
    simp [h1, LevelDebug, LevelInfo, LevelWarn, LevelError, LevelFatal,
      LevelPanic]

/-- The caller sequence `WithCallersFrames` stores, in closed form. -/
theorem withCallersFrames_callers (rt : Runtime) (l : Logger) :
    (l.WithCallersFrames rt).callers = frameIter (rt.stack.take 25) := rfl

/-! ### Claim theorems -/

/-- C1: the claim — `WithFields` never mutates the receiver's own field
set, the containers being copied rather than aliased — is violated by the
code: `clone` copies the struct shallowly, so the derived logger's `fields`
map is the receiver's own map object, and the additions are inserted into
it.  At the concrete state `sampleBase` / `sampleHeap` (receiver's map is
`{"a": 1}`), after `WithFields({"b": 2})` the receiver's own field set has
gained the key `"b"`. -/
theorem withFields_mutates_receiver_field_set :
    observeFields sampleBase
        ((sampleBase.WithFields [("b", .int 2)] sampleHeap).2)
      ≠ observeFields sampleBase sampleHeap ∧
    observeFields sampleBase sampleHeap = [("a", .int 1)] ∧
    observeFields sampleBase
        ((sampleBase.WithFields [("b", .int 2)] sampleHeap).2)
      = [("a", .int 1), ("b", .int 2)] := by
  decide

/-- C2 counterexample: at a concrete configuration whose field map holds an
unmarshalable value, serialization fails, yet the destination writer does
not receive zero bytes — `Output` still calls `Print` with the empty
content, and the writer receives one prefix-plus-newline line. -/
theorem output_marshal_failure_still_writes :
    jsonMarshal (sampleBase.JSONFormat badHeap 0 "m") = none ∧
    sampleBase.Output badHeap 0 "m" = ["P:\n"] ∧
    sampleBase.Output badHeap 0 "m" ≠ [] := by
  decide

/-- C2 amended: on serialization failure the Marshal error is discarded and
emission proceeds with the empty string: for any configuration whose level
is one of the six severities, the writer receives exactly one line holding
only the line prefix and a terminating newline — no JSON text, truncated
or otherwise, but not zero bytes. -/
theorem output_marshal_failure_empty_line (l : Logger) (h : Heap)
    (now : Int) (m : String)
    (hser : jsonMarshal (l.JSONFormat h now m) = none)
    (hlvl : l.level ∈ [LevelDebug, LevelInfo, LevelWarn, LevelError,
                       LevelFatal, LevelPanic]) :
    l.Output h now m = [logPrint l.newLogger ""] ∧
    logPrint l.newLogger "" = l.newLogger.pfx ++ "\n" := by
  refine ⟨?_, ?_⟩
  · rw [output_in_range l h now m hlvl, hser]
    rfl
  · rfl

/-- C2 amended, instantiated at the concrete failing configuration. -/
theorem output_marshal_failure_empty_line_witness :
    sampleBase.Output badHeap 0 "m" = [logPrint sampleBase.newLogger ""] ∧
    logPrint sampleBase.newLogger "" = sampleBase.newLogger.pfx ++ "\n" :=
  output_marshal_failure_empty_line sampleBase badHeap 0 "m" (by decide)
    (by decide)

/-- C3: `JSONFormat` sets the four reserved keys first and inserts a user
field only when its exact key is absent: the record's `level`, `time`,
`message` and `callers` entries are always the reserved values — in
particular `record["message"]` is the literal message argument even when
the field set binds `"message"` — and every non-reserved key reads exactly
as in the configuration's field set. -/
theorem jsonFormat_reserved_keys_win (l : Logger) (h : Heap) (now : Int)
    (m : String) :
    mapLookup (l.JSONFormat h now m) "level"
      = some (.str (levelString l.level)) ∧
    mapLookup (l.JSONFormat h now m) "time" = some (.int now) ∧
    mapLookup (l.JSONFormat h now m) "message" = some (.str m) ∧
    mapLookup (l.JSONFormat h now m) "callers"
      = some (.strArr l.callers) ∧
    (∀ k : String, k ≠ "level" → k ≠ "time" → k ≠ "message" →
      k ≠ "callers" →
      mapLookup (l.JSONFormat h now m) k
        = mapLookup (observeFields l h) k) := by
  refine ⟨?_, ?_, ?_, ?_, ?_⟩
  · rw [jsonFormat_eq_foldl, mapLookup_foldl_insertIfAbsent]
    rfl
  · rw [jsonFormat_eq_foldl, mapLookup_foldl_insertIfAbsent]
    rfl
  · rw [jsonFormat_eq_foldl, mapLookup_foldl_insertIfAbsent]
    rfl
  · rw [jsonFormat_eq_foldl, mapLookup_foldl_insertIfAbsent]
    rfl
  · intro k hk1 hk2 hk3 hk4
    rw [jsonFormat_eq_foldl, mapLookup_foldl_insertIfAbsent]
    have hnone : mapLookup
        (mapInsert (mapInsert (mapInsert (mapInsert []
           "level" (.str (levelString l.level)))
           "time" (.int now))
           "message" (.str m))
           "callers" (.strArr l.callers)) k = none := by
      rw [mapLookup_mapInsert_ne _ _ hk4, mapLookup_mapInsert_ne _ _ hk3,
          mapLookup_mapInsert_ne _ _ hk2, mapLookup_mapInsert_ne _ _ hk1]
      rfl
    rw [hnone]
    rfl

/-- C3 instantiated: a field set binding the reserved key `"message"` and
the user key `"svc"` — the record keeps the literal message and the user
field survives under its own key. -/
theorem jsonFormat_reserved_keys_win_witness :
    mapLookup (msgLogger.JSONFormat msgHeap 7 "hello") "message"
      = some (.str "hello") ∧
    mapLookup (msgLogger.JSONFormat msgHeap 7 "hello") "svc"
      = some (.str "auth") := by
  refine ⟨(jsonFormat_reserved_keys_win msgLogger msgHeap 7 "hello").2.2.1,
          ?_⟩
  rw [(jsonFormat_reserved_keys_win msgLogger msgHeap 7 "hello").2.2.2.2
      "svc" (by decide) (by decide) (by decide) (by decide)]
  decide

/-- C4: when the level is one of the six severity constants and the record
marshals successfully to `s`, `Output` hands exactly one line to the
destination writer, containing the serialized JSON text `s` — the same
single `Print` for every one of the six severities. -/
theorem output_success_writes_exactly_once (l : Logger) (h : Heap)
    (now : Int) (m s : String)
    (hlvl : l.level ∈ [LevelDebug, LevelInfo, LevelWarn, LevelError,
                       LevelFatal, LevelPanic])
    (hser : jsonMarshal (l.JSONFormat h now m) = some s) :
    l.Output h now m = [logPrint l.newLogger s] := by
  rw [output_in_range l h now m hlvl, hser]
  rfl

/-- C4 instantiated at a root logger emitting `"hi"`. -/
theorem output_success_writes_exactly_once_witness :
    rootLogger.Output ⟨[]⟩ 0 "hi"
      = [logPrint rootLogger.newLogger
          "\x7b\"callers\":[],\"level\":\"debug\",\"message\":\"hi\",\"time\":0\x7d"] :=
  output_success_writes_exactly_once rootLogger ⟨[]⟩ 0 "hi"
    "\x7b\"callers\":[],\"level\":\"debug\",\"message\":\"hi\",\"time\":0\x7d"
    (by decide) (by decide)

/-- C5: `WithCallersFrames` yields a caller sequence of at most 25 entries,
the new sequence replaces any previous one entirely (it does not depend on
the receiver's previous callers), and an empty resolvable stack yields the
empty sequence rather than an error. -/
theorem withCallersFrames_bounded_replaces (rt : Runtime) (l : Logger) :
    (l.WithCallersFrames rt).callers.length ≤ 25 ∧
    (∀ l2 : Logger,
      (l2.WithCallersFrames rt).callers
        = (l.WithCallersFrames rt).callers) ∧
    (rt.stack = [] → (l.WithCallersFrames rt).callers = []) := by
  refine ⟨?_, ?_, ?_⟩
  · rw [withCallersFrames_callers]
    have h2 : (rt.stack.take 25).length ≤ 25 := by
      rw [List.length_take]
      exact min_le_left _ _
    exact le_trans (frameIter_length_le _) h2
  · intro l2
    rw [withCallersFrames_callers, withCallersFrames_callers]
  · intro hs
    rw [withCallersFrames_callers, hs]
    rfl

/-- C5 instantiated at an empty resolvable stack. -/
theorem withCallersFrames_bounded_replaces_witness :
    (sampleBase.WithCallersFrames rtEmpty).callers = [] ∧
    (sampleBase.WithCallersFrames rtEmpty).callers.length ≤ 25 :=
  ⟨(withCallersFrames_bounded_replaces rtEmpty sampleBase).2.2 rfl,
   (withCallersFrames_bounded_replaces rtEmpty sampleBase).1⟩

/-- C6: when no stack frame is resolvable at the requested skip depth,
`WithCaller` returns the receiver unchanged (in particular the caller
sequence is exactly the receiver's — no crash, no spurious frame, no
error); on success it stores a single-element caller sequence replacing
any previous one. -/
theorem withCaller_failure_preserves_callers (rt : Runtime) (l : Logger)
    (skip : Int) :
    (rt.caller skip = none → l.WithCaller rt skip = l) ∧
    (∀ ci : CallerInfo, rt.caller skip = some ci →
      (l.WithCaller rt skip).callers
        = [formatFrame ci.file ci.line ((rt.funcForPC ci.pc).getD "")]) := by
  constructor
  · intro hnone
    simp [Logger.WithCaller, hnone, Logger.clone]
  · intro ci hci
    simp [Logger.WithCaller, hci, Logger.clone]

/-- C6 instantiated: a runtime with no resolvable frame leaves the logger
unchanged; a runtime resolving a frame stores that one rendered frame. -/
theorem withCaller_failure_preserves_callers_witness :
    sampleBase.WithCaller rtEmpty 0 = sampleBase ∧
    (sampleBase.WithCaller rtOne 0).callers
      = [formatFrame "a.go" 12 "main.f"] := by
  constructor
  · exact (withCaller_failure_preserves_callers rtEmpty sampleBase 0).1 rfl
  · rw [(withCaller_failure_preserves_callers rtOne sampleBase 0).2
        ⟨7, "a.go", 12⟩ rfl]
    rfl

/-- C7: each of the twelve leveled convenience calls equals deriving the
configuration at that severity with `WithLevel` and emitting the rendered
message through `Output`; `Fatal`/`Fatalf`/`Panic`/`Panicf` in particular
perform exactly one ordinary write and nothing else (no process
termination, no control-flow exception — they are total functions whose
only effect is the single emitted line). -/
theorem leveled_convenience_calls_equiv (l : Logger) (h : Heap) (now : Int)
    (vs : List GoValue) (format : String) :
    l.Debug h now vs
      = (l.WithLevel LevelDebug).Output h now (fmtSprint vs) ∧
    l.Debugf h now format vs
      = (l.WithLevel LevelDebug).Output h now (fmtSprintf format vs) ∧
    l.Info h now vs
      = (l.WithLevel LevelInfo).Output h now (fmtSprint vs) ∧
    l.Infof h now format vs
      = (l.WithLevel LevelInfo).Output h now (fmtSprintf format vs) ∧
    l.Warn h now vs
      = (l.WithLevel LevelWarn).Output h now (fmtSprint vs) ∧
    l.Warnf h now format vs
      = (l.WithLevel LevelWarn).Output h now (fmtSprintf format vs) ∧
    l.Error h now vs
      = (l.WithLevel LevelError).Output h now (fmtSprint vs) ∧
    l.Errorf h now format vs
      = (l.WithLevel LevelError).Output h now (fmtSprintf format vs) ∧
    l.Fatal h now vs
      = (l.WithLevel LevelFatal).Output h now (fmtSprint vs) ∧
    l.Fatalf h now format vs
      = (l.WithLevel LevelFatal).Output h now (fmtSprintf format vs) ∧
    l.Panic h now vs
      = (l.WithLevel LevelPanic).Output h now (fmtSprint vs) ∧
    l.Panicf h now format vs
      = (l.WithLevel LevelPanic).Output h now (fmtSprintf format vs) ∧
    (l.Fatal h now vs).length = 1 ∧
    (l.Panic h now vs).length = 1 := by
  refine ⟨rfl, rfl, rfl, rfl, rfl, rfl, rfl, rfl, rfl, rfl, rfl, rfl,
          ?_, ?_⟩
  · show ((l.WithLevel LevelFatal).Output h now (fmtSprint vs)).length = 1
    rw [output_in_range (l.WithLevel LevelFatal) h now (fmtSprint vs)
        (by show LevelFatal ∈ [LevelDebug, LevelInfo, LevelWarn,
              LevelError, LevelFatal, LevelPanic]
            decide)]
    rfl
  · show ((l.WithLevel LevelPanic).Output h now (fmtSprint vs)).length = 1
    rw [output_in_range (l.WithLevel LevelPanic) h now (fmtSprint vs)
        (by show LevelPanic ∈ [LevelDebug, LevelInfo, LevelWarn,
              LevelError, LevelFatal, LevelPanic]
            decide)]
    rfl

/-- C8: for a receiver whose field map is nil, `WithFields` allocates a
fresh map (at the next free address, beyond every live map), leaves every
pre-existing map object untouched, and the receiver's (empty) field set is
unchanged after this call and after any further `WithFields` on the
derived configuration. -/
theorem withFields_nil_receiver_never_mutated (r : Logger)
    (F G : FieldMap) (h : Heap) (hr : r.fields = none) :
    (r.WithFields F h).1.fields = some h.maps.length ∧
    (∀ a : Nat, a < h.maps.length →
      ((r.WithFields F h).2).get a = h.get a) ∧
    observeFields r ((r.WithFields F h).2) = [] ∧
    observeFields r
      (((r.WithFields F h).1.WithFields G ((r.WithFields F h).2)).2)
      = [] := by
  refine ⟨?_, ?_, ?_, ?_⟩
  · simp [Logger.WithFields, Logger.clone, hr, Heap.alloc]
  · intro a ha
    simp only [Logger.WithFields, Logger.clone, hr, Heap.alloc, Heap.set,
      Heap.get]
    rw [List.getD_eq_getElem?_getD, List.getD_eq_getElem?_getD,
        List.getElem?_set_ne (Nat.ne_of_gt ha),
        List.getElem?_append_left ha,
        List.getD_eq_getElem?_getD]
  · simp [observeFields, hr]
  · simp [observeFields, hr]

/-- C8 instantiated at a freshly constructed root logger over an empty
heap. -/
theorem withFields_nil_receiver_never_mutated_witness :
    (rootLogger.WithFields [("k", .str "v")] ⟨[]⟩).1.fields = some 0 ∧
    observeFields rootLogger
      ((rootLogger.WithFields [("k", .str "v")] ⟨[]⟩).2) = [] ∧
    observeFields rootLogger
      (((rootLogger.WithFields [("k", .str "v")] ⟨[]⟩).1.WithFields
          [("k2", .int 2)]
          ((rootLogger.WithFields [("k", .str "v")] ⟨[]⟩).2)).2) = [] := by
  have hmain := withFields_nil_receiver_never_mutated rootLogger
    [("k", .str "v")] [("k2", .int 2)] ⟨[]⟩ rfl
  exact ⟨hmain.1, hmain.2.2.1, hmain.2.2.2⟩

/-- C9: the frame loop appends a frame only when a further frame follows,
so of the `n ≥ 1` frames the runtime reports (the resolvable stack,
truncated to the 25-entry buffer) exactly the first `n - 1` rendered
frames are stored and the final reported frame is discarded; a walk
yielding exactly one frame produces an empty caller sequence. -/
theorem withCallersFrames_drops_last_frame (rt : Runtime) (l : Logger)
    (_hn : 1 ≤ (rt.stack.take 25).length) :
    (l.WithCallersFrames rt).callers.length
      = (rt.stack.take 25).length - 1 ∧
    (l.WithCallersFrames rt).callers
      = ((rt.stack.take 25).dropLast).map
          (fun f => formatFrame f.file f.line f.function) ∧
    ((rt.stack.take 25).length = 1 →
      (l.WithCallersFrames rt).callers = []) := by
  rw [withCallersFrames_callers, frameIter_eq_dropLast_map]
  refine ⟨by simp [List.length_dropLast], rfl, ?_⟩
  intro hone
  have : (rt.stack.take 25).dropLast.length = 0 := by
    rw [List.length_dropLast, hone]
  rw [List.length_eq_zero.mp this]
  rfl

/-- C9 instantiated at a runtime reporting exactly one resolvable frame:
the stored caller sequence is empty. -/
theorem withCallersFrames_drops_last_frame_witness :
    1 ≤ (rtOne.stack.take 25).length ∧
    (sampleBase.WithCallersFrames rtOne).callers = [] :=
  ⟨by decide,
   (withCallersFrames_drops_last_frame rtOne sampleBase (by decide)).2.2
     (by decide)⟩

/-- C10: for a level that is none of the six defined severity constants,
`Level.String` falls through every switch case and returns `""`, and
`Output`'s severity switch matches no case, so the destination writer
receives nothing at all — the call is a silent no-op. -/
theorem output_unknown_level_silent (l : Logger) (h : Heap) (now : Int)
    (m : String)
    (hlvl : l.level ∉ [LevelDebug, LevelInfo, LevelWarn, LevelError,
                       LevelFatal, LevelPanic]) :
    levelString l.level = "" ∧ l.Output h now m = [] := by
  simp only [List.mem_cons, List.not_mem_nil, or_false, not_or] at hlvl
  obtain ⟨h0, h1, h2, h3, h4, h5⟩ := hlvl
  refine ⟨?_, ?_⟩
  · simp [levelString, h0, h1, h2, h3, h4, h5]
  · simp [Logger.Output, h0, h1, h2, h3, h4, h5]

/-- C10 instantiated at level 6 (one past `LevelPanic`). -/
theorem output_unknown_level_silent_witness :
    levelString oddLogger.level = "" ∧ oddLogger.Output ⟨[]⟩ 0 "x" = [] :=
  output_unknown_level_silent oddLogger ⟨[]⟩ 0 "x" (by decide)

end BlogLogger
